import Mathlib

/-!
Verification of the caching text-to-speech proxy (backend of
flutter-text-reader): a shallow embedding in Lean 4 of the key-derivation,
cache-store, rate-limiting and request-pipeline code in
`src/backend/cache_manager.py` and `src/backend/main.py`, together with
theorems settling the specification's claims about that code.

Modelling conventions:
- Python `bytes` values are `List Nat` with every element `< 256`;
  Python `str` values are `List Char` (`Str` below).
- Python floats appear in the code only through their decimal rendering
  (`json.dumps` for `CacheManager._generate_key`, f-string interpolation for
  `generate_cache_key`).  A float-valued field is therefore embedded as the
  `Str` that Python's `repr` produces for it; distinct floats have distinct
  reprs and equal floats identical ones, so tuple equality is preserved.
- `hashlib.sha256(...).hexdigest()` is embedded as an executable SHA-256 over
  byte lists (FIPS 180-4), rendered as lowercase hex.
- The Redis backend shared by the cache and the rate limiter is an explicit
  state machine whose operations return `Except Unit`; a raised
  `redis.RedisError` is the `.error` case, and `try/except` blocks in the
  Python code become `match` on that result.
-/

set_option maxRecDepth 4000

abbrev Str := List Char

/-- The character list of a string literal. -/
def str (s : String) : Str := s.data

/-! ## SHA-256 over byte lists (the meaning of `hashlib.sha256`) -/

/-- Truncation to a 32-bit word. -/
def w32 (n : Nat) : Nat := n % 4294967296

/-- 32-bit right rotation. -/
def rotr (k x : Nat) : Nat := w32 ((x >>> k) ||| (x <<< (32 - k)))

def ssig0 (x : Nat) : Nat := (rotr 7 x) ^^^ (rotr 18 x) ^^^ (x >>> 3)

def ssig1 (x : Nat) : Nat := (rotr 17 x) ^^^ (rotr 19 x) ^^^ (x >>> 10)

def bsig0 (x : Nat) : Nat := (rotr 2 x) ^^^ (rotr 13 x) ^^^ (rotr 22 x)

def bsig1 (x : Nat) : Nat := (rotr 6 x) ^^^ (rotr 11 x) ^^^ (rotr 25 x)

def chf (x y z : Nat) : Nat := (x &&& y) ^^^ ((x ^^^ 4294967295) &&& z)

def majf (x y z : Nat) : Nat := (x &&& y) ^^^ (x &&& z) ^^^ (y &&& z)

/-- The 64 SHA-256 round constants (FIPS 180-4, here in decimal). -/
def K256 : List Nat :=
  [1116352408, 1899447441, 3049323471, 3921009573, 961987163,
   1508970993, 2453635748, 2870763221, 3624381080, 310598401,
   607225278, 1426881987, 1925078388, 2162078206, 2614888103,
   3248222580, 3835390401, 4022224774, 264347078, 604807628,
   770255983, 1249150122, 1555081692, 1996064986, 2554220882,
   2821834349, 2952996808, 3210313671, 3336571891, 3584528711,
   113926993, 338241895, 666307205, 773529912, 1294757372,
   1396182291, 1695183700, 1986661051, 2177026350, 2456956037,
   2730485921, 2820302411, 3259730800, 3345764771, 3516065817,
   3600352804, 4094571909, 275423344, 430227734, 506948616,
   659060556, 883997877, 958139571, 1322822218, 1537002063,
   1747873779, 1955562222, 2024104815, 2227730452, 2361852424,
   2428436474, 2756734187, 3204031479, 3329325298]

/-- A number as 8 big-endian bytes (the padded message-length field). -/
def be64 (n : Nat) : List Nat :=
  [(n >>> 56) % 256, (n >>> 48) % 256, (n >>> 40) % 256, (n >>> 32) % 256,
   (n >>> 24) % 256, (n >>> 16) % 256, (n >>> 8) % 256, n % 256]

/-- A 32-bit word as 4 big-endian bytes. -/
def be32 (n : Nat) : List Nat :=
  [(n >>> 24) % 256, (n >>> 16) % 256, (n >>> 8) % 256, n % 256]

/-- SHA-256 message padding: 0x80, zeros to 56 mod 64, 64-bit bit length. -/
def sha256pad (m : List Nat) : List Nat :=
  m ++ 128 :: (List.replicate ((119 - m.length % 64) % 64) 0 ++ be64 (8 * m.length))

/-- Split a list into consecutive chunks of size `k` (fuel-driven). -/
def chunksAux (k : Nat) : Nat → List Nat → List (List Nat)
  | 0, _ => []
  | _, [] => []
  | fuel + 1, l => l.take k :: chunksAux k fuel (l.drop k)

def chunks (k : Nat) (l : List Nat) : List (List Nat) := chunksAux k l.length l

/-- A big-endian byte group as one word. -/
def beWord (l : List Nat) : Nat := l.foldl (fun a b => a * 256 + b) 0

/-- The 16 initial 32-bit words of a 64-byte block. -/
def blockWords (b : List Nat) : List Nat := (chunks 4 b).map beWord

/-- Extend the message schedule; the accumulator holds the words produced so
far, most recent first, so positions 1, 6, 14, 15 are W(t-2), W(t-7),
W(t-15), W(t-16). -/
def extendW : Nat → List Nat → List Nat
  | 0, w => w
  | n + 1, w =>
      extendW n
        (w32 (ssig1 (w.getD 1 0) + w.getD 6 0 + ssig0 (w.getD 14 0) + w.getD 15 0) :: w)

/-- The 64-word message schedule of one block. -/
def schedule (b : List Nat) : List Nat := (extendW 48 (blockWords b).reverse).reverse

/-- The eight SHA-256 working registers. -/
structure Regs where
  a : Nat
  b : Nat
  c : Nat
  d : Nat
  e : Nat
  f : Nat
  g : Nat
  h : Nat
deriving DecidableEq

/-- One compression round: `kw` is the round constant paired with the
schedule word. -/
def round1 (r : Regs) (kw : Nat × Nat) : Regs :=
  let t1 := w32 (r.h + bsig1 r.e + chf r.e r.f r.g + kw.1 + kw.2)
  let t2 := w32 (bsig0 r.a + majf r.a r.b r.c)
  ⟨w32 (t1 + t2), r.a, r.b, r.c, w32 (r.d + t1), r.e, r.f, r.g⟩

/-- Compress one 64-byte block into the running hash state. -/
def compress (r : Regs) (b : List Nat) : Regs :=
  let f := (K256.zip (schedule b)).foldl round1 r
  ⟨w32 (r.a + f.a), w32 (r.b + f.b), w32 (r.c + f.c), w32 (r.d + f.d),
   w32 (r.e + f.e), w32 (r.f + f.f), w32 (r.g + f.g), w32 (r.h + f.h)⟩

/-- The SHA-256 initial hash value. -/
def regs0 : Regs :=
  ⟨1779033703, 3144134277, 1013904242, 2773480762,
   1359893119, 2600822924, 528734635, 1541459225⟩

/-- SHA-256 digest of a byte list, as 32 bytes. -/
def sha256 (m : List Nat) : List Nat :=
  let r := (chunks 64 (sha256pad m)).foldl compress regs0
  be32 r.a ++ be32 r.b ++ be32 r.c ++ be32 r.d ++
  be32 r.e ++ be32 r.f ++ be32 r.g ++ be32 r.h

/-! ## Hex rendering and UTF-8 (the meanings of `.hexdigest()` and
`str.encode()`) -/

/-- A hex digit character, lowercase. -/
def hexDigit (n : Nat) : Char := Char.ofNat (if n < 10 then 48 + n else 87 + n)

def byteToHex (b : Nat) : Str := [hexDigit (b / 16), hexDigit (b % 16)]

def bytesToHex (l : List Nat) : Str := (l.map byteToHex).flatten

/-- `hashlib.sha256(m).hexdigest()`. -/
def sha256hex (m : List Nat) : Str := bytesToHex (sha256 m)

/-- UTF-8 encoding of one character. -/
def utf8Char (c : Char) : List Nat :=
  let n := c.toNat
  if n < 128 then [n]
  else if n < 2048 then [192 + n / 64, 128 + n % 64]
  else if n < 65536 then [224 + n / 4096, 128 + n / 64 % 64, 128 + n % 64]
  else [240 + n / 262144, 128 + n / 4096 % 64, 128 + n / 64 % 64, 128 + n % 64]

/-- `s.encode()` — UTF-8 encoding of a string. -/
def utf8 : Str → List Nat
  | [] => []
  | c :: s => utf8Char c ++ utf8 s

/-- FIPS 180-4 test vector: the digest of "abc". -/
theorem sha256_check_abc :
    sha256hex (utf8 (str "abc")) =
      str "ba7816bf8f01cfea414140de5dae2223b00361a396177a9cb410ff61f20015ad" := by
  decide

/-- FIPS 180-4 test vector: the digest of the empty message. -/
theorem sha256_check_empty :
    sha256hex (utf8 (str "")) =
      str "e3b0c44298fc1c149afbf4c8996fb92427ae41e4649b934ca495991b7852b855" := by
  decide

/-- FIPS 180-4 test vector: a two-block message. -/
theorem sha256_check_two_blocks :
    sha256hex (utf8 (str "abcdbcdecdefdefgefghfghighijhijkijkljklmklmnlmnomnopnopq")) =
      str "248d6a61d20638b8e5c026930c3e6039a33ce45964ff2167f6ecedd419db06c1" := by
  decide

/-! ## JSON string escaping (the meaning of `json.dumps` on `str` values,
with its default `ensure_ascii=True`) -/

/-- Python's `%04x` rendering of a code point below 0x10000. -/
def hex4 (n : Nat) : Str :=
  [hexDigit (n / 4096 % 16), hexDigit (n / 256 % 16), hexDigit (n / 16 % 16),
   hexDigit (n % 16)]

/-- How `json.dumps` escapes one character: the seven short escapes, pass-through
for printable ASCII, and `\uXXXX` (a surrogate pair above 0xFFFF) for
everything else. -/
def escChar (c : Char) : Str :=
  if c = '"' then ['\\', '"']
  else if c = '\\' then ['\\', '\\']
  else if c = '\x08' then ['\\', 'b']
  else if c = '\x09' then ['\\', 't']
  else if c = '\x0A' then ['\\', 'n']
  else if c = '\x0C' then ['\\', 'f']
  else if c = '\x0D' then ['\\', 'r']
  else if c.toNat < 32 ∨ 127 ≤ c.toNat then
    if c.toNat < 65536 then '\\' :: 'u' :: hex4 c.toNat
    else
      ('\\' :: 'u' :: hex4 (55296 + (c.toNat - 65536) / 1024)) ++
        ('\\' :: 'u' :: hex4 (56320 + (c.toNat - 65536) % 1024))
  else [c]

/-- The body of a JSON string literal for `s`. -/
def escape : Str → Str
  | [] => []
  | c :: s => escChar c ++ escape s

/-- Value of a lowercase hex digit character. -/
def hexVal (c : Char) : Nat := if c.toNat ≤ 57 then c.toNat - 48 else c.toNat - 87

def hexVal4 (a b c d : Char) : Nat :=
  hexVal a * 4096 + hexVal b * 256 + hexVal c * 16 + hexVal d

/-- A left inverse of `escape`: decodes every string `escape` can produce
(its value on other inputs is irrelevant). Its existence makes `escape`
injective, which is what the key-sensitivity claims need. -/
def unescape : Str → Str
  | [] => []
  | c :: rest =>
    if c = '\\' then
      match rest with
      | [] => []
      | e :: r =>
        if e = '"' then '"' :: unescape r
        else if e = '\\' then '\\' :: unescape r
        else if e = 'b' then '\x08' :: unescape r
        else if e = 't' then '\x09' :: unescape r
        else if e = 'n' then '\x0A' :: unescape r
        else if e = 'f' then '\x0C' :: unescape r
        else if e = 'r' then '\x0D' :: unescape r
        else if e = 'u' then
          match r with
          | a :: b :: c2 :: d :: r2 =>
            if 55296 ≤ hexVal4 a b c2 d ∧ hexVal4 a b c2 d < 56320 then
              match r2 with
              | x :: y :: a2 :: b2 :: c3 :: d2 :: r3 =>
                if x = '\\' ∧ y = 'u' then
                  Char.ofNat
                      (65536 + (hexVal4 a b c2 d - 55296) * 1024 +
                        (hexVal4 a2 b2 c3 d2 - 56320)) ::
                    unescape r3
                else []
              | _ => []
            else Char.ofNat (hexVal4 a b c2 d) :: unescape r2
          | _ => []
        else []
    else c :: unescape rest

theorem hexVal_hexDigit : ∀ n < 16, hexVal (hexDigit n) = n := by decide

theorem hexVal4_hex4 (n : Nat) (h : n < 65536) :
    hexVal4 (hexDigit (n / 4096 % 16)) (hexDigit (n / 256 % 16))
      (hexDigit (n / 16 % 16)) (hexDigit (n % 16)) = n := by
  unfold hexVal4
  rw [hexVal_hexDigit _ (Nat.mod_lt _ (by norm_num)),
    hexVal_hexDigit _ (Nat.mod_lt _ (by norm_num)),
    hexVal_hexDigit _ (Nat.mod_lt _ (by norm_num)),
    hexVal_hexDigit _ (Nat.mod_lt _ (by norm_num))]
  omega

theorem char_ofNat_toNat (c : Char) : Char.ofNat c.toNat = c := by
  have hv : c.toNat.isValidChar := c.valid
  unfold Char.ofNat
  rw [dif_pos hv]
  apply Char.ext
  apply UInt32.ext
  rfl

theorem unescape_quote (r : Str) : unescape ('\\' :: '"' :: r) = '"' :: unescape r := by
  conv_lhs => rw [unescape.eq_def]
  simp

theorem unescape_bs (r : Str) : unescape ('\\' :: '\\' :: r) = '\\' :: unescape r := by
  conv_lhs => rw [unescape.eq_def]
  simp

theorem unescape_b (r : Str) : unescape ('\\' :: 'b' :: r) = '\x08' :: unescape r := by
  conv_lhs => rw [unescape.eq_def]
  simp

theorem unescape_t (r : Str) : unescape ('\\' :: 't' :: r) = '\x09' :: unescape r := by
  conv_lhs => rw [unescape.eq_def]
  simp

theorem unescape_n (r : Str) : unescape ('\\' :: 'n' :: r) = '\x0A' :: unescape r := by
  conv_lhs => rw [unescape.eq_def]
  simp

theorem unescape_f (r : Str) : unescape ('\\' :: 'f' :: r) = '\x0C' :: unescape r := by
  conv_lhs => rw [unescape.eq_def]
  simp

theorem unescape_r (r : Str) : unescape ('\\' :: 'r' :: r) = '\x0D' :: unescape r := by
  conv_lhs => rw [unescape.eq_def]
  simp

theorem unescape_plain (c : Char) (r : Str) (h : ¬c = '\\') :
    unescape (c :: r) = c :: unescape r := by
  conv_lhs => rw [unescape.eq_def]
  simp [h]

theorem unescape_u (a b c2 d : Char) (r : Str)
    (h : ¬(55296 ≤ hexVal4 a b c2 d ∧ hexVal4 a b c2 d < 56320)) :
    unescape ('\\' :: 'u' :: a :: b :: c2 :: d :: r) =
      Char.ofNat (hexVal4 a b c2 d) :: unescape r := by
  conv_lhs => rw [unescape.eq_def]
  simp [h]

theorem unescape_surr (a b c2 d a2 b2 c3 d2 : Char) (r : Str)
    (h : 55296 ≤ hexVal4 a b c2 d ∧ hexVal4 a b c2 d < 56320) :
    unescape
        ('\\' :: 'u' :: a :: b :: c2 :: d :: '\\' :: 'u' :: a2 :: b2 :: c3 :: d2 :: r) =
      Char.ofNat
          (65536 + (hexVal4 a b c2 d - 55296) * 1024 + (hexVal4 a2 b2 c3 d2 - 56320)) ::
        unescape r := by
  conv_lhs => rw [unescape.eq_def]
  simp [h]

theorem unescape_escape (s : Str) : unescape (escape s) = s := by
  induction s with
  | nil => rfl
  | cons c s ih =>
    show unescape (escChar c ++ escape s) = c :: s
    have hval : c.toNat < 55296 ∨ 57343 < c.toNat ∧ c.toNat < 1114112 := c.valid
    by_cases h1 : c = '"'
    · subst h1
      rw [show escChar '"' = ['\\', '"'] from rfl]
      simp only [List.cons_append, List.nil_append]
      rw [unescape_quote, ih]
    by_cases h2 : c = '\\'
    · subst h2
      rw [show escChar '\\' = ['\\', '\\'] from rfl]
      simp only [List.cons_append, List.nil_append]
      rw [unescape_bs, ih]
    by_cases h3 : c = '\x08'
    · subst h3
      rw [show escChar '\x08' = ['\\', 'b'] from rfl]
      simp only [List.cons_append, List.nil_append]
      rw [unescape_b, ih]
    by_cases h4 : c = '\x09'
    · subst h4
      rw [show escChar '\x09' = ['\\', 't'] from rfl]
      simp only [List.cons_append, List.nil_append]
      rw [unescape_t, ih]
    by_cases h5 : c = '\x0A'
    · subst h5
      rw [show escChar '\x0A' = ['\\', 'n'] from rfl]
      simp only [List.cons_append, List.nil_append]
      rw [unescape_n, ih]
    by_cases h6 : c = '\x0C'
    · subst h6
      rw [show escChar '\x0C' = ['\\', 'f'] from rfl]
      simp only [List.cons_append, List.nil_append]
      rw [unescape_f, ih]
    by_cases h7 : c = '\x0D'
    · subst h7
      rw [show escChar '\x0D' = ['\\', 'r'] from rfl]
      simp only [List.cons_append, List.nil_append]
      rw [unescape_r, ih]
    by_cases h8 : c.toNat < 32 ∨ 127 ≤ c.toNat
    · by_cases h9 : c.toNat < 65536
      · simp only [escChar, if_neg h1, if_neg h2, if_neg h3, if_neg h4, if_neg h5,
          if_neg h6, if_neg h7, if_pos h8, if_pos h9, hex4, List.cons_append,
          List.nil_append]
        rw [unescape_u _ _ _ _ _ (by rw [hexVal4_hex4 c.toNat h9]; omega)]
        rw [hexVal4_hex4 c.toNat h9, char_ofNat_toNat, ih]
      · have hv1 : 55296 + (c.toNat - 65536) / 1024 < 65536 := by omega
        have hv2 : 56320 + (c.toNat - 65536) % 1024 < 65536 := by
          have := Nat.mod_lt (c.toNat - 65536) (y := 1024) (by norm_num)
          omega
        have hdivlt : (c.toNat - 65536) / 1024 < 1024 := by omega
        simp only [escChar, if_neg h1, if_neg h2, if_neg h3, if_neg h4, if_neg h5,
          if_neg h6, if_neg h7, if_pos h8, if_neg h9, hex4, List.cons_append,
          List.nil_append, List.append_assoc]
        rw [unescape_surr _ _ _ _ _ _ _ _ _
          (by rw [hexVal4_hex4 _ hv1]; omega)]
        rw [hexVal4_hex4 _ hv1, hexVal4_hex4 _ hv2]
        have harith : 65536 + (55296 + (c.toNat - 65536) / 1024 - 55296) * 1024 +
            (56320 + (c.toNat - 65536) % 1024 - 56320) = c.toNat := by
          have := Nat.div_add_mod (c.toNat - 65536) 1024
          omega
        rw [harith, char_ofNat_toNat, ih]
    · have hcc : ¬c = '\\' := h2
      simp only [escChar, if_neg h1, if_neg h2, if_neg h3, if_neg h4, if_neg h5,
        if_neg h6, if_neg h7, if_neg h8, List.cons_append, List.nil_append]
      rw [unescape_plain c _ hcc, ih]

theorem escape_inj {s t : Str} (h : escape s = escape t) : s = t := by
  have hs := unescape_escape s
  rw [h, unescape_escape t] at hs
  exact hs.symm

/-- A JSON string literal: quote, escaped body, quote. -/
def jstr (s : Str) : Str := '"' :: (escape s ++ ['"'])

theorem jstr_inj {s t : Str} (h : jstr s = jstr t) : s = t := by
  unfold jstr at h
  exact escape_inj (List.append_cancel_right (List.cons_injective h))

/-! ## Sorted-key JSON serialization of the parameter dict
(the meaning of `json.dumps(params, sort_keys=True)`) -/

/-- A JSON value as it occurs in the parameter dict: a string, or a number
carried as the decimal rendering Python's `repr` gives it. -/
inductive JVal where
  | s (v : Str)
  | num (v : Str)
deriving DecidableEq

def renderJVal : JVal → Str
  | .s v => jstr v
  | .num v => v

/-- One `"key": value` item. -/
def renderEntry (e : Str × JVal) : Str := jstr e.1 ++ (str ": " ++ renderJVal e.2)

/-- `", "`-separated items (the default `json.dumps` separators). -/
def renderEntries : List (Str × JVal) → Str
  | [] => []
  | [e] => renderEntry e
  | e :: es => renderEntry e ++ (str ", " ++ renderEntries es)

/-- Code-point lexicographic string order, as Python compares `str` keys. -/
def strLE : Str → Str → Bool
  | [], _ => true
  | _ :: _, [] => false
  | a :: s, b :: t => if a < b then true else if b < a then false else strLE s t

theorem strLE_cons (a b : Char) (s t : Str) :
    strLE (a :: s) (b :: t) = true ↔ a < b ∨ a = b ∧ strLE s t = true := by
  by_cases h1 : a < b
  · simp [strLE, h1]
  · by_cases h2 : b < a
    · have hne : a ≠ b := fun he => absurd h2 (by simp [he])
      simp [strLE, h1, h2, hne]
    · have he : a = b := le_antisymm (not_lt.mp h2) (not_lt.mp h1)
      subst he
      simp [strLE, h1]

theorem strLE_total (s : Str) : ∀ t : Str, strLE s t = true ∨ strLE t s = true := by
  induction s with
  | nil => intro t; left; cases t <;> rfl
  | cons a s ih =>
    intro t
    cases t with
    | nil => right; rfl
    | cons b t =>
      rcases lt_trichotomy a b with h | h | h
      · left; rw [strLE_cons]; exact Or.inl h
      · subst h
        rcases ih t with h2 | h2
        · left; rw [strLE_cons]; exact Or.inr ⟨rfl, h2⟩
        · right; rw [strLE_cons]; exact Or.inr ⟨rfl, h2⟩
      · right; rw [strLE_cons]; exact Or.inl h

theorem strLE_trans (s : Str) :
    ∀ t u : Str, strLE s t = true → strLE t u = true → strLE s u = true := by
  induction s with
  | nil => intro t u _ _; cases u <;> rfl
  | cons a s ih =>
    intro t u hst htu
    cases t with
    | nil => exact absurd hst (by simp [strLE])
    | cons b t =>
      cases u with
      | nil => exact absurd htu (by simp [strLE])
      | cons c u =>
        rw [strLE_cons] at hst htu ⊢
        rcases hst with h1 | ⟨h1, h1r⟩
        · rcases htu with h2 | ⟨h2, _⟩
          · exact Or.inl (lt_trans h1 h2)
          · exact Or.inl (h2 ▸ h1)
        · rcases htu with h2 | ⟨h2, h2r⟩
          · exact Or.inl (h1 ▸ h2)
          · exact Or.inr ⟨h1.trans h2, ih t u h1r h2r⟩

theorem strLE_antisymm (s : Str) :
    ∀ t : Str, strLE s t = true → strLE t s = true → s = t := by
  induction s with
  | nil => intro t _ hts; cases t with
    | nil => rfl
    | cons b t => exact absurd hts (by simp [strLE])
  | cons a s ih =>
    intro t hst hts
    cases t with
    | nil => exact absurd hst (by simp [strLE])
    | cons b t =>
      rw [strLE_cons] at hst hts
      rcases hst with h1 | ⟨h1, h1r⟩
      · rcases hts with h2 | ⟨h2, _⟩
        · exact absurd h2 (lt_asymm h1)
        · exact absurd (h2 ▸ h1) (lt_irrefl b)
      · rcases hts with h2 | ⟨_, h2r⟩
        · exact absurd (h1 ▸ h2) (lt_irrefl b)
        · rw [h1, ih t h1r h2r]

/-- Ordering of dict items by key, as `sort_keys=True` sorts them. -/
def keyLE (a b : Str × JVal) : Prop := strLE a.1 b.1 = true

instance : DecidableRel keyLE := fun a b => inferInstanceAs (Decidable (strLE a.1 b.1 = true))

instance : IsTotal (Str × JVal) keyLE := ⟨fun a b => strLE_total a.1 b.1⟩

instance : IsTrans (Str × JVal) keyLE := ⟨fun a b c => strLE_trans a.1 b.1 c.1⟩

/-- `json.dumps(d, sort_keys=True)` on a dict given as its item list: sort the
items by key, render them comma-separated inside braces. -/
def jsonDumpsSorted (l : List (Str × JVal)) : Str :=
  '\x7b' :: (renderEntries (l.insertionSort keyLE) ++ ['\x7d'])

/-! ## The two key derivers -/

/-- The six synthesis parameters of `CacheManager._generate_key`. Float-valued
fields (`speed`, `pitch`, `volume_gain_db`) are embedded as their decimal
rendering, which is exactly how they enter the serialized key material. -/
structure SynthParams where
  text : Str
  voice : Str
  speed : Str
  pitch : Str
  language : Str
  volume_gain_db : Str
deriving DecidableEq

/-- The `params` dict literal of `_generate_key`, in source order. -/
def paramsEntries (p : SynthParams) : List (Str × JVal) :=
  [(str "text", .s p.text), (str "voice", .s p.voice), (str "speed", .num p.speed),
   (str "pitch", .num p.pitch), (str "language", .s p.language),
   (str "volume_gain_db", .num p.volume_gain_db)]

/-- `json.dumps(params, sort_keys=True)` — the canonical key material. -/
def canonJson (p : SynthParams) : Str := jsonDumpsSorted (paramsEntries p)

/-- `CacheManager._generate_key`: `"audio:" + sha256(canonical json).hexdigest()`. -/
def generate_key (p : SynthParams) : Str :=
  str "audio:" ++ sha256hex (utf8 (canonJson p))

/-- The request model of `main.py` (`SynthesizeRequest`): five fields, no
volume gain. Float fields are again carried as their decimal rendering,
which is what the f-string interpolation produces. -/
structure SynthesizeRequest where
  text : Str
  voice : Str
  speed : Str
  pitch : Str
  language : Str
deriving DecidableEq

/-- The f-string `f"{text}:{voice}:{speed}:{pitch}:{language}"`. -/
def key_data (r : SynthesizeRequest) : Str :=
  r.text ++ (str ":" ++ (r.voice ++ (str ":" ++ (r.speed ++
    (str ":" ++ (r.pitch ++ (str ":" ++ r.language)))))))

/-- `main.generate_cache_key`: bare sha256 hex digest of the colon-joined
fields — no namespace prefix, no volume gain. -/
def generate_cache_key (r : SynthesizeRequest) : Str := sha256hex (utf8 (key_data r))

/-- The `sort_keys=True` item order of the parameter dict. -/
theorem sortedParamsEntries (p : SynthParams) :
    (paramsEntries p).insertionSort keyLE =
      [(str "language", .s p.language), (str "pitch", .num p.pitch),
       (str "speed", .num p.speed), (str "text", .s p.text),
       (str "voice", .s p.voice), (str "volume_gain_db", .num p.volume_gain_db)] := rfl

/-- The canonical JSON of the parameter dict, unfolded: keys come out in
sorted order with the `", "` and `": "` separators of `json.dumps`. -/
theorem canonJson_eq (p : SynthParams) :
    canonJson p =
      str "\x7b\"language\": \"" ++
        (((escape p.language ++ str "\"") ++
          (str ", \"pitch\": " ++ (p.pitch ++ (str ", \"speed\": " ++ (p.speed ++
            (str ", \"text\": \"" ++ ((escape p.text ++ str "\"") ++
              (str ", \"voice\": \"" ++ ((escape p.voice ++ str "\"") ++
                (str ", \"volume_gain_db\": " ++ p.volume_gain_db)))))))))) ++
          str "\x7d") := by
  rfl

/-! ## The Redis backend model

The external backend shared by `CacheManager` and the `main.py` helpers.
`Redis.down` is an unreachable backend: every operation on it raises, i.e.
returns `.error`. On a reachable backend, `failWrites` injects write
failures (e.g. an out-of-memory refusal), modelling the claims about a set
that fails while reads still work. Time is the explicit `now` field; an
entry is live while `now` is before its expiry. -/

abbrev Bytes := List Nat

/-- A Redis string value: raw bytes, or an integer counter. -/
inductive RVal where
  | bytes (b : Bytes)
  | int (n : Nat)
deriving DecidableEq

/-- Association-list lookup on string keys. -/
def aget {β : Type} : List (Str × β) → Str → Option β
  | [], _ => none
  | (k, v) :: t, key => if k = key then some v else aget t key

/-- Association-list insert-or-replace. -/
def aset {β : Type} (l : List (Str × β)) (key : Str) (v : β) : List (Str × β) :=
  (key, v) :: l.filter (fun x => decide (x.1 ≠ key))

/-- Association-list delete. -/
def adel {β : Type} (l : List (Str × β)) (key : Str) : List (Str × β) :=
  l.filter (fun x => decide (x.1 ≠ key))

theorem aget_filter_ne {β : Type} (k k' : Str) (h : k' ≠ k) :
    ∀ l : List (Str × β), aget (l.filter (fun x => decide (x.1 ≠ k'))) k = aget l k := by
  intro l
  induction l with
  | nil => rfl
  | cons a t ih =>
    cases a with
    | mk k1 v1 =>
      rw [List.filter_cons]
      by_cases ha : k1 = k'
      · rw [if_neg (by simp [ha]), ih]
        have hak : ¬k1 = k := fun hh => h (ha ▸ hh ▸ rfl)
        simp only [aget]
        rw [if_neg hak]
      · rw [if_pos (by simp [ha])]
        simp only [aget]
        by_cases hk : k1 = k
        · rw [if_pos hk, if_pos hk]
        · rw [if_neg hk, if_neg hk, ih]

theorem aget_aset_same {β : Type} (l : List (Str × β)) (k : Str) (v : β) :
    aget (aset l k v) k = some v := by
  simp [aget, aset]

theorem aget_aset_ne {β : Type} (l : List (Str × β)) (k k' : Str) (v : β) (h : k' ≠ k) :
    aget (aset l k' v) k = aget l k := by
  simp only [aset, aget]
  rw [if_neg (by simpa using h), aget_filter_ne _ _ h]

/-- The reachable-backend state. -/
structure RedisUp where
  now : Nat
  store : List (Str × RVal × Option Nat)
  hashes : List (Str × List (Str × Nat))
  usedMemory : Nat
  failWrites : Bool
deriving DecidableEq

inductive Redis where
  | down
  | up (s : RedisUp)
deriving DecidableEq

/-- Is an entry with this expiry live at time `now`? -/
def live (now : Nat) : Option Nat → Bool
  | none => true
  | some t => decide (now < t)

/-- The live value stored under a key, if any. -/
def lookupLive (s : RedisUp) (key : Str) : Option RVal :=
  match aget s.store key with
  | some (v, e) => if live s.now e then some v else none
  | none => none

/-- The decimal rendering Redis gives when a counter is read with GET. -/
def decimalBytes (n : Nat) : Bytes := (Nat.toDigits 10 n).map Char.toNat

/-- GET: read a value (never mutates). -/
def rget (key : Str) : Redis → Except Unit (Option Bytes × Redis)
  | .down => .error ()
  | .up s =>
    match lookupLive s key with
    | some (.bytes b) => .ok (some b, .up s)
    | some (.int n) => .ok (some (decimalBytes n), .up s)
    | none => .ok (none, .up s)

/-- SETEX: write a value with a TTL in seconds; unconditional overwrite. -/
def rsetex (key : Str) (ttl : Nat) (v : Bytes) : Redis → Except Unit (Unit × Redis)
  | .down => .error ()
  | .up s =>
    if s.failWrites then .error ()
    else .ok ((), .up { s with store := aset s.store key (.bytes v, some (s.now + ttl)) })

/-- INCR: create-at-1 or increment preserving the TTL; raises on a
non-integer value. -/
def rincr (key : Str) : Redis → Except Unit (Nat × Redis)
  | .down => .error ()
  | .up s =>
    if s.failWrites then .error ()
    else
      match aget s.store key with
      | some (.int n, e) =>
        if live s.now e then
          .ok (n + 1, .up { s with store := aset s.store key (.int (n + 1), e) })
        else .ok (1, .up { s with store := aset s.store key (.int 1, none) })
      | some (.bytes _, e) =>
        if live s.now e then .error ()
        else .ok (1, .up { s with store := aset s.store key (.int 1, none) })
      | none => .ok (1, .up { s with store := aset s.store key (.int 1, none) })

/-- EXPIRE: set the expiry of a live key. -/
def rexpire (key : Str) (secs : Nat) : Redis → Except Unit (Bool × Redis)
  | .down => .error ()
  | .up s =>
    if s.failWrites then .error ()
    else
      match aget s.store key with
      | some (v, e) =>
        if live s.now e then
          .ok (true, .up { s with store := aset s.store key (v, some (s.now + secs)) })
        else .ok (false, .up s)
      | none => .ok (false, .up s)

/-- DEL of a single key: returns how many keys were removed. -/
def rdelete (key : Str) : Redis → Except Unit (Nat × Redis)
  | .down => .error ()
  | .up s =>
    if s.failWrites then .error ()
    else
      match lookupLive s key with
      | some _ => .ok (1, .up { s with store := adel s.store key })
      | none => .ok (0, .up { s with store := adel s.store key })

/-- HINCRBY by 1: create-at-1 or increment a hash field. -/
def rhincrby (hk f : Str) : Redis → Except Unit (Nat × Redis)
  | .down => .error ()
  | .up s =>
    if s.failWrites then .error ()
    else
      let fields := (aget s.hashes hk).getD []
      let v := (aget fields f).getD 0 + 1
      .ok (v, .up { s with hashes := aset s.hashes hk (aset fields f v) })

/-- HGET of a hash field (never mutates). -/
def rhget (hk f : Str) : Redis → Except Unit (Option Nat)
  | .down => .error ()
  | .up s => .ok ((aget s.hashes hk).bind (fun fs => aget fs f))

/-- PING. -/
def rping : Redis → Except Unit Unit
  | .down => .error ()
  | .up _ => .ok ()

/-- DBSIZE: the number of live keys. -/
def rdbsize : Redis → Except Unit Nat
  | .down => .error ()
  | .up s =>
    .ok ((s.store.filter (fun x => live s.now x.2.2)).length + s.hashes.length)

/-- `INFO memory`, reduced to the `used_memory` figure the code reads. -/
def rinfoUsedMemory : Redis → Except Unit Nat
  | .down => .error ()
  | .up s => .ok s.usedMemory

/-! ## CacheManager (`cache_manager.py`) -/

/-- Python truthiness of an `Optional[bytes]`: `None` and `b""` are falsy. -/
def truthy : Option Bytes → Bool
  | none => false
  | some b => !b.isEmpty

/-- The well-known aggregate stats key `"cache:stats"`. -/
def statsKey : Str := str "cache:stats"

namespace CacheManager

/-- `CacheManager.get`: read; count a hit when the value is truthy and a miss
otherwise, swallowing counter failures; on a read failure return `None`. -/
def get (key : Str) (r : Redis) : Option Bytes × Redis :=
  match rget key r with
  | .error _ => (none, r)
  | .ok (data, r1) =>
    let stat := if truthy data then str "hits" else str "misses"
    match rhincrby statsKey stat r1 with
    | .ok (_, r2) => (data, r2)
    | .error _ => (data, r1)

/-- `CacheManager.set`: SETEX with the configured TTL (in seconds);
`False` on failure. -/
def set (ttl : Nat) (key : Str) (audio_data : Bytes) (r : Redis) : Bool × Redis :=
  match rsetex key ttl audio_data r with
  | .ok (_, r1) => (true, r1)
  | .error _ => (false, r)

/-- `CacheManager.delete`: whether a key existed and was removed;
`False` on failure. -/
def delete (key : Str) (r : Redis) : Bool × Redis :=
  match rdelete key r with
  | .ok (n, r1) => (decide (n > 0), r1)
  | .error _ => (false, r)

/-- The statistics snapshot `CacheManager.get_stats` returns. -/
structure Stats where
  total_keys : Nat
  memory_usage_mb : ℚ
  hit_rate : ℚ
  total_hits : Nat
  total_misses : Nat
deriving DecidableEq

/-- Round-half-to-even on an exact rational, as Python's `round` ties. -/
def roundHalfEven (q : ℚ) : ℤ :=
  let f := ⌊q⌋
  if q - f < 1/2 then f
  else if (1 : ℚ)/2 < q - f then f + 1
  else if f % 2 = 0 then f else f + 1

/-- Python's `round(q, 2)`, over exact rationals. -/
def pyRound2 (q : ℚ) : ℚ := (roundHalfEven (q * 100) : ℚ) / 100

/-- `CacheManager.get_stats`: aggregate backend introspection with the
hit/miss counters; `hit_rate` is a rounded percentage; a zeroed snapshot on
any backend failure. Reads only, so the state is unchanged. -/
def get_stats (r : Redis) : Stats :=
  match rinfoUsedMemory r, rdbsize r, rhget statsKey (str "hits") r,
      rhget statsKey (str "misses") r with
  | .ok mem, .ok keys, .ok hv, .ok mv =>
    let hits := hv.getD 0
    let misses := mv.getD 0
    let total := hits + misses
    let rate : ℚ := if 0 < total then (hits : ℚ) / total * 100 else 0
    ⟨keys, (mem : ℚ) / (1024 * 1024), pyRound2 rate, hits, misses⟩
  | _, _, _, _ => ⟨0, 0, 0, 0, 0⟩

/-- `CacheManager.is_connected`: does PING succeed? -/
def is_connected (r : Redis) : Bool :=
  match rping r with
  | .ok _ => true
  | .error _ => false

end CacheManager

/-! ## The `main.py` helpers and the `/synthesize` pipeline -/

/-- `check_rate_limit`: INCR the per-client window counter, start the
60-second window when it is fresh, admit iff the post-increment count is
within the limit; fail open (`True`) without a client or on any error. -/
def check_rate_limit (limit : Nat) (client_ip : Str) (rc : Option Redis) :
    Bool × Option Redis :=
  match rc with
  | none => (true, none)
  | some r =>
    match rincr (str "rate_limit:" ++ client_ip) r with
    | .error _ => (true, some r)
    | .ok (count, r1) =>
      if count = 1 then
        match rexpire (str "rate_limit:" ++ client_ip) 60 r1 with
        | .error _ => (true, some r1)
        | .ok (_, r2) => (decide (count ≤ limit), some r2)
      else (decide (count ≤ limit), some r1)

/-- `get_cached_audio`: GET under the `audio:` namespace; `None` without a
client or on any error. -/
def get_cached_audio (cache_key : Str) (rc : Option Redis) : Option Bytes :=
  match rc with
  | none => none
  | some r =>
    match rget (str "audio:" ++ cache_key) r with
    | .error _ => none
    | .ok (data, _) => data

/-- `cache_audio`: SETEX under the `audio:` namespace with the configured
TTL; failures are swallowed. -/
def cache_audio (ttl_secs : Nat) (cache_key : Str) (audio_data : Bytes)
    (rc : Option Redis) : Option Redis :=
  match rc with
  | none => none
  | some r =>
    match rsetex (str "audio:" ++ cache_key) ttl_secs audio_data r with
    | .error _ => some r
    | .ok (_, r1) => some r1

/-- The terminal outcome of one `/synthesize` request: 429, 200 with
`X-Cache: HIT`, 200 with `X-Cache: MISS`, or 500/503. -/
inductive SynthResult where
  | rateLimited
  | hit (audio : Bytes)
  | miss (audio : Bytes)
  | synthesisFailed
deriving DecidableEq

/-- The `/synthesize` pipeline: rate-limit check, key derivation, cache
probe (truthiness test), provider call, cache population, response. The
provider (`synthesize_speech` offloaded to a thread) is an oracle returning
bytes or failing. The third component records whether the provider was
invoked. -/
def synthesize (limit ttl_secs : Nat) (provider : SynthesizeRequest → Except Unit Bytes)
    (request : SynthesizeRequest) (client_ip : Str) (rc : Option Redis) :
    SynthResult × Option Redis × Bool :=
  match check_rate_limit limit client_ip rc with
  | (false, rc1) => (.rateLimited, rc1, false)
  | (true, rc1) =>
    let cache_key := generate_cache_key request
    let cached_audio := get_cached_audio cache_key rc1
    if truthy cached_audio then (.hit (cached_audio.getD []), rc1, false)
    else
      match provider request with
      | .error _ => (.synthesisFailed, rc1, true)
      | .ok audio_content =>
        (.miss audio_content, cache_audio ttl_secs cache_key audio_content rc1, true)

/-! ## Supporting lemmas about the backend state -/

theorem aset_aset_same {β : Type} (l : List (Str × β)) (k : Str) (v v' : β) :
    aset (aset l k v) k v' = aset l k v' := by
  simp only [aset, List.filter_cons]
  rw [if_neg (by simp)]
  rw [List.filter_filter]
  simp

theorem rlKey_ne_audioKey (ip k : Str) :
    str "rate_limit:" ++ ip ≠ str "audio:" ++ k := by
  intro h
  have h1 : (str "rate_limit:" ++ ip).head? = (str "audio:" ++ k).head? := by rw [h]
  rw [show (str "rate_limit:" ++ ip).head? = some 'r' from rfl,
    show (str "audio:" ++ k).head? = some 'a' from rfl] at h1
  exact absurd (Option.some.inj h1) (by decide)

theorem audioKey_ne_rlKey (ip k : Str) :
    str "audio:" ++ k ≠ str "rate_limit:" ++ ip :=
  fun h => rlKey_ne_audioKey ip k h.symm

/-- The hits counter the stats hash currently holds (0 when unset). -/
def statHits (s : RedisUp) : Nat :=
  ((aget s.hashes statsKey).bind (fun fs => aget fs (str "hits"))).getD 0

/-- The misses counter the stats hash currently holds (0 when unset). -/
def statMisses (s : RedisUp) : Nat :=
  ((aget s.hashes statsKey).bind (fun fs => aget fs (str "misses"))).getD 0

theorem field_of_getD_fields (s : RedisUp) (f : Str) :
    (aget ((aget s.hashes statsKey).getD []) f).getD 0 =
      ((aget s.hashes statsKey).bind (fun fs => aget fs f)).getD 0 := by
  cases h : aget s.hashes statsKey <;> simp [h, aget]

/-- Effect of `_increment_stat` on a reachable, writable backend. -/
theorem rhincrby_effects (s : RedisUp) (hW : s.failWrites = false) (f : Str) :
    rhincrby statsKey f (.up s) =
      .ok ((aget ((aget s.hashes statsKey).getD []) f).getD 0 + 1,
        .up { s with hashes := (aset s.hashes statsKey
          (aset ((aget s.hashes statsKey).getD []) f
            ((aget ((aget s.hashes statsKey).getD []) f).getD 0 + 1))) }) := by
  simp [rhincrby, hW]

theorem statHits_after_miss (s : RedisUp) :
    statHits { s with hashes := (aset s.hashes statsKey
        (aset ((aget s.hashes statsKey).getD []) (str "misses")
          ((aget ((aget s.hashes statsKey).getD []) (str "misses")).getD 0 + 1))) } =
      statHits s := by
  simp only [statHits, aget_aset_same, Option.some_bind]
  rw [aget_aset_ne _ _ _ _ (by decide)]
  exact field_of_getD_fields s (str "hits")

theorem statMisses_after_miss (s : RedisUp) :
    statMisses { s with hashes := (aset s.hashes statsKey
        (aset ((aget s.hashes statsKey).getD []) (str "misses")
          ((aget ((aget s.hashes statsKey).getD []) (str "misses")).getD 0 + 1))) } =
      statMisses s + 1 := by
  simp only [statMisses, aget_aset_same, Option.some_bind, Option.getD_some]
  rw [field_of_getD_fields]

theorem statMisses_after_hit (s : RedisUp) :
    statMisses { s with hashes := (aset s.hashes statsKey
        (aset ((aget s.hashes statsKey).getD []) (str "hits")
          ((aget ((aget s.hashes statsKey).getD []) (str "hits")).getD 0 + 1))) } =
      statMisses s := by
  simp only [statMisses, aget_aset_same, Option.some_bind]
  rw [aget_aset_ne _ _ _ _ (by decide)]
  exact field_of_getD_fields s (str "misses")

theorem statHits_after_hit (s : RedisUp) :
    statHits { s with hashes := (aset s.hashes statsKey
        (aset ((aget s.hashes statsKey).getD []) (str "hits")
          ((aget ((aget s.hashes statsKey).getD []) (str "hits")).getD 0 + 1))) } =
      statHits s + 1 := by
  simp only [statHits, aget_aset_same, Option.some_bind, Option.getD_some]
  rw [field_of_getD_fields]

/-- First call of a window: INCR creates the counter at 1 and EXPIRE starts
the 60-second window. -/
theorem crl_fresh (limit : Nat) (ip : Str) (s : RedisUp)
    (hW : s.failWrites = false)
    (h0 : aget s.store (str "rate_limit:" ++ ip) = none) :
    check_rate_limit limit ip (some (.up s)) =
      (decide (1 ≤ limit), some (.up { s with store :=
        (aset s.store (str "rate_limit:" ++ ip) (.int 1, some (s.now + 60))) })) := by
  simp only [check_rate_limit, rincr, rexpire, hW, h0, Bool.false_eq_true, if_false,
    aget_aset_same, aset_aset_same, live, if_true, if_pos rfl]

/-- Later calls of a live window: INCR bumps the counter and the expiry is
left untouched. -/
theorem crl_existing (limit : Nat) (ip : Str) (s : RedisUp)
    (hW : s.failWrites = false) (c : Nat) (e : Option Nat)
    (hc : aget s.store (str "rate_limit:" ++ ip) = some (.int c, e))
    (hlive : live s.now e = true) (hpos : 0 < c) :
    check_rate_limit limit ip (some (.up s)) =
      (decide (c + 1 ≤ limit), some (.up { s with store :=
        (aset s.store (str "rate_limit:" ++ ip) (.int (c + 1), e)) })) := by
  simp only [check_rate_limit, rincr, hW, hc, Bool.false_eq_true, if_false, hlive, if_true]
  rw [if_neg (by omega)]

/-! ## Claim theorems -/

/-- C6: when the backend raises on any operation, no exception escapes the
component boundary: `get` returns absent, `set`/`delete` return failure,
`get_stats` returns the zeroed snapshot, `is_connected` is false,
`check_rate_limit` fails open, and a synthesis request still completes with
`X-Cache: MISS` (both with a raising client and with no client at all). -/
theorem backend_down_degrades
    (ttl limit ttl2 : Nat) (k : Str) (v : Bytes)
    (provider : SynthesizeRequest → Except Unit Bytes) (request : SynthesizeRequest)
    (client_ip : Str) (audio : Bytes) (hprov : provider request = .ok audio) :
    CacheManager.get k .down = (none, .down) ∧
    CacheManager.set ttl k v .down = (false, .down) ∧
    CacheManager.delete k .down = (false, .down) ∧
    CacheManager.get_stats .down = ⟨0, 0, 0, 0, 0⟩ ∧
    CacheManager.is_connected .down = false ∧
    check_rate_limit limit client_ip (some .down) = (true, some .down) ∧
    (synthesize limit ttl2 provider request client_ip (some .down)).1 = .miss audio ∧
    (synthesize limit ttl2 provider request client_ip none).1 = .miss audio := by
  refine ⟨rfl, rfl, rfl, rfl, rfl, rfl, ?_, ?_⟩ <;>
    simp [synthesize, check_rate_limit, rincr, get_cached_audio, rget, truthy,
      cache_audio, rsetex, hprov]

theorem backend_down_degrades_witness :
    (synthesize 60 86400 (fun _ => .ok [7, 8]) ⟨str "hi", str "A", str "1.0",
      str "0.0", str "ja-JP"⟩ (str "1.2.3.4") (some .down)).1 = .miss [7, 8] :=
  (backend_down_degrades 86400 60 86400 (str "k") [1] (fun _ => .ok [7, 8])
    ⟨str "hi", str "A", str "1.0", str "0.0", str "ja-JP"⟩ (str "1.2.3.4") [7, 8]
    rfl).2.2.2.2.2.2.1

/-- C7: round-trip — on a reachable backend, `set(k, payload, ttl)` succeeds
and an immediate `get(k)` (the TTL not yet elapsed) returns the payload
byte-for-byte. -/
theorem set_get_roundtrip (s : RedisUp) (hW : s.failWrites = false)
    (k : Str) (v : Bytes) (ttl : Nat) (ht : 0 < ttl) :
    (CacheManager.set ttl k v (.up s)).1 = true ∧
    (CacheManager.get k (CacheManager.set ttl k v (.up s)).2).1 = some v := by
  have hlive : s.now < s.now + ttl := by omega
  constructor
  · simp [CacheManager.set, rsetex, hW]
  · simp [CacheManager.set, CacheManager.get, rsetex, rget, hW, lookupLive,
      aget_aset_same, live, hlive, rhincrby]

theorem set_get_roundtrip_witness :
    (CacheManager.set 86400 (str "audio:k") [0, 255] (.up ⟨0, [], [], 0, false⟩)).1 = true ∧
    (CacheManager.get (str "audio:k")
      (CacheManager.set 86400 (str "audio:k") [0, 255] (.up ⟨0, [], [], 0, false⟩)).2).1 =
      some [0, 255] :=
  set_get_roundtrip ⟨0, [], [], 0, false⟩ rfl (str "audio:k") [0, 255] 86400 (by decide)

/-- `lookupLive` only depends on the clock and the value stored under the
key. -/
theorem lookupLive_congr (s s' : RedisUp) (key : Str) (hnow : s'.now = s.now)
    (hst : aget s'.store key = aget s.store key) :
    lookupLive s' key = lookupLive s key := by
  simp [lookupLive, hst, hnow]

/-- The hits counter visible through a possibly-down client. -/
def statHitsR : Redis → Nat
  | .down => 0
  | .up s => statHits s

/-- The misses counter visible through a possibly-down client. -/
def statMissesR : Redis → Nat
  | .down => 0
  | .up s => statMisses s

/-- C8: if synthesis succeeds but the cache-population SETEX fails, the
pipeline still terminates with `X-Cache: MISS` and the synthesized payload,
the provider having been invoked — the same response as when population
succeeds. -/
theorem population_failure_keeps_success
    (limit ttl : Nat) (provider : SynthesizeRequest → Except Unit Bytes)
    (request : SynthesizeRequest) (client_ip : Str) (audio : Bytes) (s : RedisUp)
    (hW : s.failWrites = false)
    (h0 : aget s.store (str "rate_limit:" ++ client_ip) = none)
    (hlim : 1 ≤ limit)
    (hmiss : lookupLive s (str "audio:" ++ generate_cache_key request) = none)
    (hprov : provider request = .ok audio) :
    (synthesize limit ttl provider request client_ip
        (some (.up { s with failWrites := true }))).1 = .miss audio ∧
    (synthesize limit ttl provider request client_ip
        (some (.up { s with failWrites := true }))).2.2 = true ∧
    (synthesize limit ttl provider request client_ip
        (some (.up { s with failWrites := true }))).1 =
      (synthesize limit ttl provider request client_ip (some (.up s))).1 := by
  have hd : decide (1 ≤ limit) = true := by simp [hlim]
  have hmissF : lookupLive { s with failWrites := true }
      (str "audio:" ++ generate_cache_key request) = none :=
    (lookupLive_congr s { s with failWrites := true } _ rfl rfl).trans hmiss
  have hmiss2 : lookupLive
      ⟨s.now, aset s.store (str "rate_limit:" ++ client_ip) (.int 1, some (s.now + 60)),
        s.hashes, s.usedMemory, false⟩
      (str "audio:" ++ generate_cache_key request) = none :=
    (lookupLive_congr s
      ⟨s.now, aset s.store (str "rate_limit:" ++ client_ip) (.int 1, some (s.now + 60)),
        s.hashes, s.usedMemory, false⟩ _ rfl
      (aget_aset_ne s.store _ _ _ (rlKey_ne_audioKey _ _))).trans hmiss
  refine ⟨?_, ?_, ?_⟩ <;>
    simp [synthesize, check_rate_limit, rincr, rexpire, get_cached_audio, rget,
      truthy, cache_audio, rsetex, hprov, hW, h0, hd, live, aget_aset_same,
      aset_aset_same, hmissF, hmiss2]

theorem population_failure_keeps_success_witness :
    (synthesize 60 86400 (fun _ => .ok [9]) ⟨str "hi", str "A", str "1.0",
        str "0.0", str "ja-JP"⟩ (str "1.2.3.4")
        (some (.up { (⟨0, [], [], 0, false⟩ : RedisUp) with failWrites := true }))).1 =
      .miss [9] :=
  (population_failure_keeps_success 60 86400 (fun _ => .ok [9])
    ⟨str "hi", str "A", str "1.0", str "0.0", str "ja-JP"⟩ (str "1.2.3.4") [9]
    ⟨0, [], [], 0, false⟩ rfl rfl (by decide) rfl rfl).1

/-- C10: an entry whose payload is the empty byte string is treated as absent
at the public interface: `CacheManager.get` returns it but counts a miss
(not a hit), and the pipeline's truthiness check treats the empty cached
payload as a cache miss and invokes the provider. -/
theorem empty_payload_treated_as_miss
    (s : RedisUp) (hW : s.failWrites = false) (k : Str)
    (hk : lookupLive s k = some (.bytes []))
    (limit ttl : Nat) (provider : SynthesizeRequest → Except Unit Bytes)
    (request : SynthesizeRequest) (client_ip : Str) (audio : Bytes)
    (h0 : aget s.store (str "rate_limit:" ++ client_ip) = none)
    (hlim : 1 ≤ limit)
    (hak : lookupLive s (str "audio:" ++ generate_cache_key request) = some (.bytes []))
    (hprov : provider request = .ok audio) :
    (CacheManager.get k (.up s)).1 = some [] ∧
    statMissesR (CacheManager.get k (.up s)).2 = statMisses s + 1 ∧
    statHitsR (CacheManager.get k (.up s)).2 = statHits s ∧
    (synthesize limit ttl provider request client_ip (some (.up s))).1 = .miss audio ∧
    (synthesize limit ttl provider request client_ip (some (.up s))).2.2 = true := by
  have hd : decide (1 ≤ limit) = true := by simp [hlim]
  have hak2 : lookupLive
      ⟨s.now, aset s.store (str "rate_limit:" ++ client_ip) (.int 1, some (s.now + 60)),
        s.hashes, s.usedMemory, false⟩
      (str "audio:" ++ generate_cache_key request) = some (.bytes []) :=
    (lookupLive_congr s
      ⟨s.now, aset s.store (str "rate_limit:" ++ client_ip) (.int 1, some (s.now + 60)),
        s.hashes, s.usedMemory, false⟩ _ rfl
      (aget_aset_ne s.store _ _ _ (rlKey_ne_audioKey _ _))).trans hak
  refine ⟨?_, ?_, ?_, ?_, ?_⟩
  · simp [CacheManager.get, rget, hk, truthy, rhincrby_effects _ hW]
  · simp [CacheManager.get, rget, hk, truthy, rhincrby_effects _ hW, statMissesR,
      statMisses_after_miss]
  · simp [CacheManager.get, rget, hk, truthy, rhincrby_effects _ hW, statHitsR,
      statHits_after_miss]
  · simp [synthesize, check_rate_limit, rincr, rexpire, get_cached_audio, rget,
      truthy, cache_audio, rsetex, hprov, hW, h0, hd, live, aget_aset_same,
      aset_aset_same, hak2]
  · simp [synthesize, check_rate_limit, rincr, rexpire, get_cached_audio, rget,
      truthy, cache_audio, rsetex, hprov, hW, h0, hd, live, aget_aset_same,
      aset_aset_same, hak2]

theorem empty_payload_treated_as_miss_witness :
    (CacheManager.get (str "k")
      (.up ⟨0, [(str "k", .bytes [], none),
        (str "audio:" ++ generate_cache_key ⟨str "hi", str "A", str "1.0",
          str "0.0", str "ja-JP"⟩, .bytes [], none)], [], 0, false⟩)).1 = some [] :=
  (empty_payload_treated_as_miss
    ⟨0, [(str "k", .bytes [], none),
      (str "audio:" ++ generate_cache_key ⟨str "hi", str "A", str "1.0",
        str "0.0", str "ja-JP"⟩, .bytes [], none)], [], 0, false⟩
    rfl (str "k") (by decide) 60 86400 (fun _ => .ok [9])
    ⟨str "hi", str "A", str "1.0", str "0.0", str "ja-JP"⟩ (str "1.2.3.4") [9]
    (by decide) (by decide) (by decide) rfl).1

/-- C1: from a state where the derived key is absent, a first request invokes
the provider and responds `X-Cache: MISS` with the synthesized payload; an
identical second request responds `X-Cache: HIT` with the identical bytes
and does not invoke the provider. (The payload must be non-empty: the hit
check is Python truthiness.) -/
theorem cache_hit_skips_provider
    (s : RedisUp) (hW : s.failWrites = false)
    (limit ttl : Nat) (provider : SynthesizeRequest → Except Unit Bytes)
    (request : SynthesizeRequest) (client_ip : Str) (audio : Bytes)
    (h0 : aget s.store (str "rate_limit:" ++ client_ip) = none)
    (hlim : 2 ≤ limit) (ht : 0 < ttl)
    (hmiss : aget s.store (str "audio:" ++ generate_cache_key request) = none)
    (hprov : provider request = .ok audio) (hne : audio ≠ []) :
    (synthesize limit ttl provider request client_ip (some (.up s))).1 = .miss audio ∧
    (synthesize limit ttl provider request client_ip (some (.up s))).2.2 = true ∧
    (synthesize limit ttl provider request client_ip
        (synthesize limit ttl provider request client_ip (some (.up s))).2.1).1 =
      .hit audio ∧
    (synthesize limit ttl provider request client_ip
        (synthesize limit ttl provider request client_ip (some (.up s))).2.1).2.2 =
      false := by
  have hd1 : decide (1 ≤ limit) = true := by simp; omega
  have hd2 : decide (1 + 1 ≤ limit) = true := by simp; omega
  have hlive60 : live s.now (some (s.now + 60)) = true := by simp [live]
  have hlivettl : live s.now (some (s.now + ttl)) = true := by simp [live]; omega
  have hemp : audio.isEmpty = false := by
    cases audio with
    | nil => exact absurd rfl hne
    | cons a t => rfl
  have hrun1 : synthesize limit ttl provider request client_ip (some (.up s)) =
      (.miss audio, some (.up
        ⟨s.now,
          aset
            (aset s.store (str "rate_limit:" ++ client_ip) (.int 1, some (s.now + 60)))
            (str "audio:" ++ generate_cache_key request)
            (.bytes audio, some (s.now + ttl)),
          s.hashes, s.usedMemory, false⟩), true) := by
    simp [synthesize, check_rate_limit, rincr, rexpire, get_cached_audio, rget,
      truthy, cache_audio, rsetex, lookupLive, hprov, hW, h0, hd1, live,
      aget_aset_same, aset_aset_same, hmiss,
      aget_aset_ne _ _ _ _ (audioKey_ne_rlKey client_ip (generate_cache_key request)),
      aget_aset_ne _ _ _ _ (rlKey_ne_audioKey client_ip (generate_cache_key request))]
  refine ⟨by rw [hrun1], by rw [hrun1], ?_, ?_⟩ <;>
  · rw [hrun1]
    simp [synthesize, check_rate_limit, rincr, rexpire, get_cached_audio, rget,
      truthy, cache_audio, rsetex, lookupLive, hprov, hd2, hlive60, hlivettl, hemp,
      aget_aset_same, aset_aset_same,
      aget_aset_ne _ _ _ _ (audioKey_ne_rlKey client_ip (generate_cache_key request)),
      aget_aset_ne _ _ _ _ (rlKey_ne_audioKey client_ip (generate_cache_key request))]

theorem cache_hit_skips_provider_witness :
    (synthesize 60 86400 (fun _ => .ok [1, 2, 3])
        ⟨str "Hello world", str "A", str "1.0", str "0.0", str "ja-JP"⟩
        (str "1.2.3.4")
        (synthesize 60 86400 (fun _ => .ok [1, 2, 3])
          ⟨str "Hello world", str "A", str "1.0", str "0.0", str "ja-JP"⟩
          (str "1.2.3.4") (some (.up ⟨0, [], [], 0, false⟩))).2.1).1 =
      .hit [1, 2, 3] :=
  (cache_hit_skips_provider ⟨0, [], [], 0, false⟩ rfl 60 86400
    (fun _ => .ok [1, 2, 3])
    ⟨str "Hello world", str "A", str "1.0", str "0.0", str "ja-JP"⟩
    (str "1.2.3.4") [1, 2, 3] rfl (by decide) (by decide) rfl rfl
    (by decide)).2.2.1

/-- A sequence of `check_rate_limit` calls from one client, collecting the
admit/deny answers. -/
def allowCalls (limit : Nat) (client_ip : Str) : Nat → Option Redis → List Bool × Option Redis
  | 0, rc => ([], rc)
  | n + 1, rc =>
    match check_rate_limit limit client_ip rc with
    | (b, rc1) =>
      match allowCalls limit client_ip n rc1 with
      | (bs, rc2) => (b :: bs, rc2)

theorem allowCalls_succ (limit : Nat) (ip : Str) (n : Nat) (rc : Option Redis) :
    allowCalls limit ip (n + 1) rc =
      ((check_rate_limit limit ip rc).1 ::
          (allowCalls limit ip n (check_rate_limit limit ip rc).2).1,
        (allowCalls limit ip n (check_rate_limit limit ip rc).2).2) := rfl

/-- From a live window holding count `j`, the next `n` calls answer
`j+i+1 ≤ limit` for `i = 0, .., n-1`. -/
theorem allowCalls_from_window (limit : Nat) (ip : Str) (s : RedisUp) :
    ∀ n j, 0 < j →
      (allowCalls limit ip n (some (.up ⟨s.now,
          aset s.store (str "rate_limit:" ++ ip) (.int j, some (s.now + 60)),
          s.hashes, s.usedMemory, false⟩))).1 =
        (List.range n).map (fun i => decide (j + i + 1 ≤ limit)) := by
  intro n
  induction n with
  | zero => intro j hj; rfl
  | succ m ih =>
    intro j hj
    have hstep := crl_existing limit ip
      ⟨s.now, aset s.store (str "rate_limit:" ++ ip) (.int j, some (s.now + 60)),
        s.hashes, s.usedMemory, false⟩
      rfl j (some (s.now + 60)) (aget_aset_same _ _ _) (by simp [live]) hj
    rw [allowCalls_succ, hstep]
    show decide (j + 1 ≤ limit) :: (allowCalls limit ip m (some (.up ⟨s.now,
        aset (aset s.store (str "rate_limit:" ++ ip) (.int j, some (s.now + 60)))
          (str "rate_limit:" ++ ip) (.int (j + 1), some (s.now + 60)),
        s.hashes, s.usedMemory, false⟩))).1 = _
    rw [aset_aset_same]
    rw [ih (j + 1) (by omega)]
    rw [List.range_succ_eq_map, List.map_cons, List.map_map]
    refine congrArg₂ List.cons ?_ ?_
    · rw [decide_eq_decide]
    · apply List.map_congr_left
      intro i _
      simp only [Function.comp]
      rw [decide_eq_decide]
      omega

/-- C5: the fixed-window rate limiter. A fresh window is created at count 1
with its expiry set to 60 seconds from now, and the call is admitted iff
`1 ≤ limit`; a later call within the live window bumps the counter, leaves
the expiry untouched, and is admitted iff the post-increment count is within
the limit; hence from a fresh window the i-th of a run of calls is admitted
iff `i ≤ limit` — calls 1..L admitted, call L+1 denied, for `limit = L`. -/
theorem rate_limit_fixed_window (limit : Nat) (ip : Str) (s : RedisUp)
    (hW : s.failWrites = false) :
    (aget s.store (str "rate_limit:" ++ ip) = none →
      check_rate_limit limit ip (some (.up s)) =
        (decide (1 ≤ limit), some (.up { s with store :=
          (aset s.store (str "rate_limit:" ++ ip) (.int 1, some (s.now + 60))) }))) ∧
    (∀ c e, 0 < c → aget s.store (str "rate_limit:" ++ ip) = some (.int c, e) →
      live s.now e = true →
      check_rate_limit limit ip (some (.up s)) =
        (decide (c + 1 ≤ limit), some (.up { s with store :=
          (aset s.store (str "rate_limit:" ++ ip) (.int (c + 1), e)) }))) ∧
    (aget s.store (str "rate_limit:" ++ ip) = none → ∀ n,
      (allowCalls limit ip n (some (.up s))).1 =
        (List.range n).map (fun i => decide (i + 1 ≤ limit))) := by
  refine ⟨fun h0 => crl_fresh limit ip s hW h0,
    fun c e hc h0 hl => crl_existing limit ip s hW c e h0 hl hc, ?_⟩
  intro h0 n
  cases n with
  | zero => rfl
  | succ m =>
    rw [allowCalls_succ, crl_fresh limit ip s hW h0]
    show decide (1 ≤ limit) :: (allowCalls limit ip m (some (.up ({ s with store :=
      (aset s.store (str "rate_limit:" ++ ip) (.int 1, some (s.now + 60))) })))).1 = _
    rw [show ({ s with store :=
        (aset s.store (str "rate_limit:" ++ ip) (.int 1, some (s.now + 60))) } : RedisUp) =
      ⟨s.now, aset s.store (str "rate_limit:" ++ ip) (.int 1, some (s.now + 60)),
        s.hashes, s.usedMemory, false⟩ from by rw [← hW]]
    rw [allowCalls_from_window limit ip s m 1 (by omega)]
    rw [List.range_succ_eq_map, List.map_cons, List.map_map]
    refine congrArg₂ List.cons ?_ ?_
    · rw [decide_eq_decide]
    · apply List.map_congr_left
      intro i _
      simp only [Function.comp]
      rw [decide_eq_decide]
      omega

theorem rate_limit_fixed_window_witness :
    (allowCalls 2 (str "9.9.9.9") 3 (some (.up ⟨0, [], [], 0, false⟩))).1 =
      [true, true, false] :=
  ((rate_limit_fixed_window 2 (str "9.9.9.9") ⟨0, [], [], 0, false⟩ rfl).2.2
    rfl 3).trans (by decide)

/-- N successive `CacheManager.get` calls on one key, keeping only the
state. -/
def getCalls (key : Str) : Nat → Redis → Redis
  | 0, r => r
  | n + 1, r => getCalls key n (CacheManager.get key r).2

/-- One `get` on an absent (or expired) key: returns `None` and counts a
miss. -/
theorem cmget_absent (s0 s : RedisUp) (k : Str)
    (hnow : s.now = s0.now) (hst : s.store = s0.store) (hW : s.failWrites = false)
    (hmiss : lookupLive s0 k = none) :
    CacheManager.get k (.up s) =
      (none, .up { s with hashes := (aset s.hashes statsKey
        (aset ((aget s.hashes statsKey).getD []) (str "misses")
          ((aget ((aget s.hashes statsKey).getD []) (str "misses")).getD 0 + 1))) }) := by
  have hl : lookupLive s k = none :=
    (lookupLive_congr s0 s _ hnow (by rw [hst])).trans hmiss
  simp [CacheManager.get, rget, hl, truthy, rhincrby_effects s hW]

/-- One `get` on a key holding a non-empty payload: returns it and counts a
hit. -/
theorem cmget_present (s0 s : RedisUp) (k : Str) (v : Bytes)
    (hnow : s.now = s0.now) (hst : s.store = s0.store) (hW : s.failWrites = false)
    (hhit : lookupLive s0 k = some (.bytes v)) (hv : v ≠ []) :
    CacheManager.get k (.up s) =
      (some v, .up { s with hashes := (aset s.hashes statsKey
        (aset ((aget s.hashes statsKey).getD []) (str "hits")
          ((aget ((aget s.hashes statsKey).getD []) (str "hits")).getD 0 + 1))) }) := by
  have hl : lookupLive s k = some (.bytes v) :=
    (lookupLive_congr s0 s _ hnow (by rw [hst])).trans hhit
  have hemp : v.isEmpty = false := by
    cases v with
    | nil => exact absurd rfl hv
    | cons a t => rfl
  simp [CacheManager.get, rget, hl, truthy, hemp, rhincrby_effects s hW]

theorem getCalls_absent (k : Str) (s0 : RedisUp) (hmiss : lookupLive s0 k = none) :
    ∀ (N : Nat) (s : RedisUp), s.now = s0.now → s.store = s0.store →
      s.failWrites = false →
      ∃ s', getCalls k N (.up s) = .up s' ∧ s'.now = s0.now ∧ s'.store = s0.store ∧
        s'.failWrites = false ∧ statHits s' = statHits s ∧
        statMisses s' = statMisses s + N := by
  intro N
  induction N with
  | zero => intro s h1 h2 h3; exact ⟨s, rfl, h1, h2, h3, rfl, rfl⟩
  | succ m ih =>
    intro s h1 h2 h3
    rw [show getCalls k (m + 1) (.up s) = getCalls k m (CacheManager.get k (.up s)).2
      from rfl]
    rw [cmget_absent s0 s k h1 h2 h3 hmiss]
    obtain ⟨s', hs', e1, e2, e3, e4, e5⟩ := ih { s with hashes := (aset s.hashes statsKey
      (aset ((aget s.hashes statsKey).getD []) (str "misses")
        ((aget ((aget s.hashes statsKey).getD []) (str "misses")).getD 0 + 1))) } h1 h2 h3
    refine ⟨s', hs', e1, e2, e3, ?_, ?_⟩
    · rw [e4, statHits_after_miss]
    · rw [e5, statMisses_after_miss]
      omega

theorem getCalls_present (k : Str) (s0 : RedisUp) (v : Bytes)
    (hhit : lookupLive s0 k = some (.bytes v)) (hv : v ≠ []) :
    ∀ (M : Nat) (s : RedisUp), s.now = s0.now → s.store = s0.store →
      s.failWrites = false →
      ∃ s', getCalls k M (.up s) = .up s' ∧ s'.now = s0.now ∧ s'.store = s0.store ∧
        s'.failWrites = false ∧ statHits s' = statHits s + M ∧
        statMisses s' = statMisses s := by
  intro M
  induction M with
  | zero => intro s h1 h2 h3; exact ⟨s, rfl, h1, h2, h3, rfl, rfl⟩
  | succ m ih =>
    intro s h1 h2 h3
    rw [show getCalls k (m + 1) (.up s) = getCalls k m (CacheManager.get k (.up s)).2
      from rfl]
    rw [cmget_present s0 s k v h1 h2 h3 hhit hv]
    obtain ⟨s', hs', e1, e2, e3, e4, e5⟩ := ih { s with hashes := (aset s.hashes statsKey
      (aset ((aget s.hashes statsKey).getD []) (str "hits")
        ((aget ((aget s.hashes statsKey).getD []) (str "hits")).getD 0 + 1))) } h1 h2 h3
    refine ⟨s', hs', e1, e2, e3, ?_, ?_⟩
    · rw [e4, statHits_after_hit]
      omega
    · rw [e5, statMisses_after_hit]

/-- `get_stats` on a reachable backend, written out field by field. -/
theorem get_stats_fields (s : RedisUp) :
    CacheManager.get_stats (.up s) =
      ⟨(s.store.filter (fun x => live s.now x.2.2)).length + s.hashes.length,
        (s.usedMemory : ℚ) / (1024 * 1024),
        CacheManager.pyRound2 (if 0 < statHits s + statMisses s
          then (statHits s : ℚ) / ((statHits s + statMisses s : Nat) : ℚ) * 100 else 0),
        statHits s, statMisses s⟩ := rfl

/-- C4 (amended): starting from zero counters, N gets finding the key absent
followed by M gets finding a non-empty payload yield stats with
`total_hits = M`, `total_misses = N`, and `hit_rate` equal to the percentage
`M/(M+N)*100` rounded to two decimals (0 when M+N = 0) — not the plain
fraction `M/(M+N)` of the original claim. -/
theorem hit_miss_accounting (s0 : RedisUp) (hW : s0.failWrites = false)
    (kA kP : Str) (v : Bytes) (N M : Nat)
    (hA : lookupLive s0 kA = none)
    (hP : lookupLive s0 kP = some (.bytes v)) (hv : v ≠ [])
    (h0h : statHits s0 = 0) (h0m : statMisses s0 = 0) :
    ∃ s', getCalls kP M (getCalls kA N (.up s0)) = .up s' ∧
      (CacheManager.get_stats (.up s')).total_hits = M ∧
      (CacheManager.get_stats (.up s')).total_misses = N ∧
      (CacheManager.get_stats (.up s')).hit_rate =
        CacheManager.pyRound2
          (if 0 < M + N then (M : ℚ) / ((M + N : Nat) : ℚ) * 100 else 0) := by
  obtain ⟨s1, hs1, a1, a2, a3, a4, a5⟩ := getCalls_absent kA s0 hA N s0 rfl rfl hW
  obtain ⟨s2, hs2, b1, b2, b3, b4, b5⟩ := getCalls_present kP s0 v hP hv M s1 a1 a2 a3
  have hh : statHits s2 = M := by omega
  have hm : statMisses s2 = N := by omega
  refine ⟨s2, by rw [hs1, hs2], ?_, ?_, ?_⟩
  · rw [get_stats_fields, hh]
  · rw [get_stats_fields, hm]
  · rw [get_stats_fields]
    simp only [hh, hm]

theorem hit_miss_accounting_witness :
    ∃ s', getCalls (str "p") 1 (getCalls (str "m") 1
        (.up ⟨0, [(str "p", .bytes [1], none)], [], 0, false⟩)) = .up s' ∧
      (CacheManager.get_stats (.up s')).total_hits = 1 ∧
      (CacheManager.get_stats (.up s')).total_misses = 1 ∧
      (CacheManager.get_stats (.up s')).hit_rate =
        CacheManager.pyRound2
          (if 0 < 1 + 1 then ((1 : Nat) : ℚ) / ((1 + 1 : Nat) : ℚ) * 100 else 0) :=
  hit_miss_accounting ⟨0, [(str "p", .bytes [1], none)], [], 0, false⟩ rfl
    (str "m") (str "p") [1] 1 1 (by decide) (by decide) (by decide) rfl rfl

/-- C4 counterexample to the claim as stated: after one miss and one hit the
code reports `hit_rate = 50` (a rounded percentage), not the fraction
`1/(1+1) = 0.5`. -/
theorem hit_rate_is_percentage_counterexample :
    (CacheManager.get_stats (getCalls (str "p") 1 (getCalls (str "m") 1
        (.up ⟨0, [(str "p", .bytes [1], none)], [], 0, false⟩)))).total_hits = 1 ∧
    (CacheManager.get_stats (getCalls (str "p") 1 (getCalls (str "m") 1
        (.up ⟨0, [(str "p", .bytes [1], none)], [], 0, false⟩)))).total_misses = 1 ∧
    (CacheManager.get_stats (getCalls (str "p") 1 (getCalls (str "m") 1
        (.up ⟨0, [(str "p", .bytes [1], none)], [], 0, false⟩)))).hit_rate = 50 ∧
    (CacheManager.get_stats (getCalls (str "p") 1 (getCalls (str "m") 1
        (.up ⟨0, [(str "p", .bytes [1], none)], [], 0, false⟩)))).hit_rate ≠
      (1 : ℚ) / (1 + 1) := by
  have hstate : getCalls (str "p") 1 (getCalls (str "m") 1
      (.up ⟨0, [(str "p", .bytes [1], none)], [], 0, false⟩)) =
      .up ⟨0, [(str "p", .bytes [1], none)],
        [(statsKey, [(str "hits", 1), (str "misses", 1)])], 0, false⟩ := by
    decide
  rw [hstate, get_stats_fields]
  have hh : statHits ⟨0, [(str "p", .bytes [1], none)],
      [(statsKey, [(str "hits", 1), (str "misses", 1)])], 0, false⟩ = 1 := by decide
  have hm : statMisses ⟨0, [(str "p", .bytes [1], none)],
      [(statsKey, [(str "hits", 1), (str "misses", 1)])], 0, false⟩ = 1 := by decide
  rw [hh, hm]
  norm_num [CacheManager.pyRound2, CacheManager.roundHalfEven]

/-! ## Key sensitivity and order independence -/

/-- Decoder for `bytesToHex`, to make it injective on byte lists. -/
def hexPairs : Str → List Nat
  | a :: b :: r => (hexVal a * 16 + hexVal b) :: hexPairs r
  | _ => []

theorem hexPairs_bytesToHex : ∀ l : List Nat, (∀ x ∈ l, x < 256) →
    hexPairs (bytesToHex l) = l := by
  intro l
  induction l with
  | nil => intro _; rfl
  | cons b t ih =>
    intro hb
    have hb256 : b < 256 := hb b (List.mem_cons_self _ _)
    have h1 : b / 16 < 16 := by omega
    have h2 : b % 16 < 16 := by omega
    show hexPairs (hexDigit (b / 16) :: hexDigit (b % 16) :: bytesToHex t) = b :: t
    rw [show hexPairs (hexDigit (b / 16) :: hexDigit (b % 16) :: bytesToHex t) =
      (hexVal (hexDigit (b / 16)) * 16 + hexVal (hexDigit (b % 16))) ::
        hexPairs (bytesToHex t) from rfl]
    rw [hexVal_hexDigit _ h1, hexVal_hexDigit _ h2,
      ih (fun x hx => hb x (List.mem_cons_of_mem _ hx))]
    congr 1
    omega

theorem sha256_bytes_lt (m : List Nat) : ∀ x ∈ sha256 m, x < 256 := by
  intro x hx
  simp only [sha256, be32, List.mem_append, List.mem_cons, List.not_mem_nil,
    or_false] at hx
  omega

theorem bytesToHex_inj {l1 l2 : List Nat} (h1 : ∀ x ∈ l1, x < 256)
    (h2 : ∀ x ∈ l2, x < 256) (h : bytesToHex l1 = bytesToHex l2) : l1 = l2 := by
  have hr := hexPairs_bytesToHex l1 h1
  rw [h, hexPairs_bytesToHex l2 h2] at hr
  exact hr.symm

/-- Two parameter tuples differing in exactly one of the six fields. -/
def DiffersInOneField (p q : SynthParams) : Prop :=
  (p.text ≠ q.text ∧ p.voice = q.voice ∧ p.speed = q.speed ∧ p.pitch = q.pitch ∧
    p.language = q.language ∧ p.volume_gain_db = q.volume_gain_db) ∨
  (p.text = q.text ∧ p.voice ≠ q.voice ∧ p.speed = q.speed ∧ p.pitch = q.pitch ∧
    p.language = q.language ∧ p.volume_gain_db = q.volume_gain_db) ∨
  (p.text = q.text ∧ p.voice = q.voice ∧ p.speed ≠ q.speed ∧ p.pitch = q.pitch ∧
    p.language = q.language ∧ p.volume_gain_db = q.volume_gain_db) ∨
  (p.text = q.text ∧ p.voice = q.voice ∧ p.speed = q.speed ∧ p.pitch ≠ q.pitch ∧
    p.language = q.language ∧ p.volume_gain_db = q.volume_gain_db) ∨
  (p.text = q.text ∧ p.voice = q.voice ∧ p.speed = q.speed ∧ p.pitch = q.pitch ∧
    p.language ≠ q.language ∧ p.volume_gain_db = q.volume_gain_db) ∨
  (p.text = q.text ∧ p.voice = q.voice ∧ p.speed = q.speed ∧ p.pitch = q.pitch ∧
    p.language = q.language ∧ p.volume_gain_db ≠ q.volume_gain_db)

instance (p q : SynthParams) : Decidable (DiffersInOneField p q) := by
  unfold DiffersInOneField
  exact inferInstance

/-- Two request tuples differing in exactly one of the five fields. -/
def ReqDiffersInOneField (r1 r2 : SynthesizeRequest) : Prop :=
  (r1.text ≠ r2.text ∧ r1.voice = r2.voice ∧ r1.speed = r2.speed ∧
    r1.pitch = r2.pitch ∧ r1.language = r2.language) ∨
  (r1.text = r2.text ∧ r1.voice ≠ r2.voice ∧ r1.speed = r2.speed ∧
    r1.pitch = r2.pitch ∧ r1.language = r2.language) ∨
  (r1.text = r2.text ∧ r1.voice = r2.voice ∧ r1.speed ≠ r2.speed ∧
    r1.pitch = r2.pitch ∧ r1.language = r2.language) ∨
  (r1.text = r2.text ∧ r1.voice = r2.voice ∧ r1.speed = r2.speed ∧
    r1.pitch ≠ r2.pitch ∧ r1.language = r2.language) ∨
  (r1.text = r2.text ∧ r1.voice = r2.voice ∧ r1.speed = r2.speed ∧
    r1.pitch = r2.pitch ∧ r1.language ≠ r2.language)

instance (r1 r2 : SynthesizeRequest) : Decidable (ReqDiffersInOneField r1 r2) := by
  unfold ReqDiffersInOneField
  exact inferInstance

/-- The canonical JSON separates tuples that differ in exactly one field. -/
theorem canonJson_ne (p q : SynthParams) (h : DiffersInOneField p q) :
    canonJson p ≠ canonJson q := by
  intro he
  rw [canonJson_eq p, canonJson_eq q] at he
  rcases h with ⟨hne, h2, h3, h4, h5, h6⟩ | ⟨h1, hne, h3, h4, h5, h6⟩ |
    ⟨h1, h2, hne, h4, h5, h6⟩ | ⟨h1, h2, h3, hne, h5, h6⟩ |
    ⟨h1, h2, h3, h4, hne, h6⟩ | ⟨h1, h2, h3, h4, h5, hne⟩
  · rw [← h2, ← h3, ← h4, ← h5, ← h6] at he
    exact hne (escape_inj (List.append_cancel_right (List.append_cancel_right
      (List.append_cancel_left (List.append_cancel_left (List.append_cancel_left
      (List.append_cancel_left (List.append_cancel_left (List.append_cancel_left
      (List.append_cancel_right (List.append_cancel_left he)))))))))))
  · rw [← h1, ← h3, ← h4, ← h5, ← h6] at he
    exact hne (escape_inj (List.append_cancel_right (List.append_cancel_right
      (List.append_cancel_left (List.append_cancel_left (List.append_cancel_left
      (List.append_cancel_left (List.append_cancel_left (List.append_cancel_left
      (List.append_cancel_left (List.append_cancel_left (List.append_cancel_right
      (List.append_cancel_left he)))))))))))))
  · rw [← h1, ← h2, ← h4, ← h5, ← h6] at he
    exact hne (List.append_cancel_right (List.append_cancel_left
      (List.append_cancel_left (List.append_cancel_left (List.append_cancel_left
      (List.append_cancel_right (List.append_cancel_left he)))))))
  · rw [← h1, ← h2, ← h3, ← h5, ← h6] at he
    exact hne (List.append_cancel_right (List.append_cancel_left
      (List.append_cancel_left (List.append_cancel_right
      (List.append_cancel_left he)))))
  · rw [← h1, ← h2, ← h3, ← h4, ← h6] at he
    exact hne (escape_inj (List.append_cancel_right (List.append_cancel_right
      (List.append_cancel_right (List.append_cancel_left he)))))
  · rw [← h1, ← h2, ← h3, ← h4, ← h5] at he
    exact hne (List.append_cancel_left (List.append_cancel_left
      (List.append_cancel_left (List.append_cancel_left (List.append_cancel_left
      (List.append_cancel_left (List.append_cancel_left (List.append_cancel_left
      (List.append_cancel_left (List.append_cancel_left (List.append_cancel_right
      (List.append_cancel_left he))))))))))))

/-- The colon-joined key material separates requests that differ in exactly
one field. -/
theorem key_data_ne (r1 r2 : SynthesizeRequest) (h : ReqDiffersInOneField r1 r2) :
    key_data r1 ≠ key_data r2 := by
  intro he
  unfold key_data at he
  rcases h with ⟨hne, h2, h3, h4, h5⟩ | ⟨h1, hne, h3, h4, h5⟩ |
    ⟨h1, h2, hne, h4, h5⟩ | ⟨h1, h2, h3, hne, h5⟩ | ⟨h1, h2, h3, h4, hne⟩
  · rw [← h2, ← h3, ← h4, ← h5] at he
    exact hne (List.append_cancel_right he)
  · rw [← h1, ← h3, ← h4, ← h5] at he
    exact hne (List.append_cancel_right (List.append_cancel_left
      (List.append_cancel_left he)))
  · rw [← h1, ← h2, ← h4, ← h5] at he
    exact hne (List.append_cancel_right (List.append_cancel_left
      (List.append_cancel_left (List.append_cancel_left
      (List.append_cancel_left he)))))
  · rw [← h1, ← h2, ← h3, ← h5] at he
    exact hne (List.append_cancel_right (List.append_cancel_left
      (List.append_cancel_left (List.append_cancel_left (List.append_cancel_left
      (List.append_cancel_left (List.append_cancel_left he)))))))
  · rw [← h1, ← h2, ← h3, ← h4] at he
    exact hne (List.append_cancel_left (List.append_cancel_left
      (List.append_cancel_left (List.append_cancel_left (List.append_cancel_left
      (List.append_cancel_left (List.append_cancel_left
      (List.append_cancel_left he))))))))

/-- C2: for parameter tuples differing in exactly one field, the canonical
key material differs, so the derived keys can only coincide through a
SHA-256 collision (for `CacheManager._generate_key` over its six fields,
and likewise for `main.generate_cache_key` over its five request fields). -/
theorem key_sensitivity (p q : SynthParams) (r1 r2 : SynthesizeRequest)
    (hp : DiffersInOneField p q) (hr : ReqDiffersInOneField r1 r2) :
    canonJson p ≠ canonJson q ∧
    (generate_key p = generate_key q →
      sha256 (utf8 (canonJson p)) = sha256 (utf8 (canonJson q))) ∧
    key_data r1 ≠ key_data r2 ∧
    (generate_cache_key r1 = generate_cache_key r2 →
      sha256 (utf8 (key_data r1)) = sha256 (utf8 (key_data r2))) := by
  refine ⟨canonJson_ne p q hp, ?_, key_data_ne r1 r2 hr, ?_⟩
  · intro he
    unfold generate_key sha256hex at he
    exact bytesToHex_inj (sha256_bytes_lt _) (sha256_bytes_lt _)
      (List.append_cancel_left he)
  · intro he
    unfold generate_cache_key sha256hex at he
    exact bytesToHex_inj (sha256_bytes_lt _) (sha256_bytes_lt _) he

theorem key_sensitivity_witness :
    canonJson ⟨str "Hello world", str "A", str "1.0", str "0.0", str "ja-JP",
        str "0.0"⟩ ≠
      canonJson ⟨str "Hello world", str "A", str "1.0", str "0.0", str "ja-JP",
        str "6.0"⟩ ∧
    key_data ⟨str "Hello world", str "A", str "1.0", str "0.0", str "ja-JP"⟩ ≠
      key_data ⟨str "Hello worlds", str "A", str "1.0", str "0.0", str "ja-JP"⟩ ∧
    generate_key ⟨str "Hello world", str "A", str "1.0", str "0.0", str "ja-JP",
        str "0.0"⟩ ≠
      generate_key ⟨str "Hello world", str "A", str "1.0", str "0.0", str "ja-JP",
        str "6.0"⟩ :=
  (fun h => ⟨h.1, h.2.2.1, by decide⟩)
    (key_sensitivity
      ⟨str "Hello world", str "A", str "1.0", str "0.0", str "ja-JP", str "0.0"⟩
      ⟨str "Hello world", str "A", str "1.0", str "0.0", str "ja-JP", str "6.0"⟩
      ⟨str "Hello world", str "A", str "1.0", str "0.0", str "ja-JP"⟩
      ⟨str "Hello worlds", str "A", str "1.0", str "0.0", str "ja-JP"⟩
      (by decide) (by decide))

/-- Two key-sorted item lists with the same items and no duplicate keys are
identical. -/
theorem sorted_entries_unique (l₁ l₂ : List (Str × JVal)) (hp : l₁.Perm l₂)
    (h₁ : List.Sorted keyLE l₁) (h₂ : List.Sorted keyLE l₂)
    (hn : (l₁.map Prod.fst).Nodup) : l₁ = l₂ := by
  have hr : ∀ {l : List (Str × JVal)}, List.Sorted keyLE l →
      ((l.map Prod.fst).Nodup) →
      List.Pairwise (fun a b : Str × JVal => keyLE a b ∧ (a.1 = b.1 → a = b)) l := by
    intro l hs hnd
    have hne : List.Pairwise (fun a b : Str × JVal => a.1 ≠ b.1) l :=
      List.pairwise_map.mp hnd
    exact (hs.and hne).imp (fun hab => ⟨hab.1, fun he => absurd he hab.2⟩)
  haveI : IsAntisymm (Str × JVal) (fun a b => keyLE a b ∧ (a.1 = b.1 → a = b)) :=
    ⟨fun a b hab hba => hab.2 (strLE_antisymm _ _ hab.1 hba.1)⟩
  exact List.eq_of_perm_of_sorted hp (hr h₁ hn)
    (hr h₂ (((hp.map Prod.fst).nodup_iff).mp hn))

/-- C3: cache-key derivation is deterministic and independent of the ambient
iteration order of the parameter dict: serializing the six items in any
order yields the identical canonical JSON and hence the identical key. -/
theorem key_derivation_order_independent (p : SynthParams)
    (l : List (Str × JVal)) (h : l.Perm (paramsEntries p)) :
    jsonDumpsSorted l = canonJson p ∧
    str "audio:" ++ sha256hex (utf8 (jsonDumpsSorted l)) = generate_key p := by
  have h6 : ((paramsEntries p).map Prod.fst).Nodup := by
    rw [show (paramsEntries p).map Prod.fst = [str "text", str "voice", str "speed",
      str "pitch", str "language", str "volume_gain_db"] from rfl]
    decide
  have hs : l.insertionSort keyLE = (paramsEntries p).insertionSort keyLE := by
    apply sorted_entries_unique
    · exact ((List.perm_insertionSort keyLE l).trans h).trans
        (List.perm_insertionSort keyLE (paramsEntries p)).symm
    · exact List.sorted_insertionSort keyLE l
    · exact List.sorted_insertionSort keyLE (paramsEntries p)
    · have hperm : ((l.insertionSort keyLE).map Prod.fst).Perm
          ((paramsEntries p).map Prod.fst) :=
        ((List.perm_insertionSort keyLE l).trans h).map Prod.fst
      exact (hperm.nodup_iff).mpr h6
  have h1 : jsonDumpsSorted l = canonJson p := by
    unfold canonJson jsonDumpsSorted
    rw [hs]
  exact ⟨h1, by unfold generate_key; rw [h1]⟩

theorem key_derivation_order_independent_witness :
    jsonDumpsSorted ((paramsEntries ⟨str "t", str "v", str "1.5", str "-2.0",
        str "en-US", str "3.0"⟩).reverse) =
      canonJson ⟨str "t", str "v", str "1.5", str "-2.0", str "en-US", str "3.0"⟩ :=
  (key_derivation_order_independent
    ⟨str "t", str "v", str "1.5", str "-2.0", str "en-US", str "3.0"⟩
    ((paramsEntries ⟨str "t", str "v", str "1.5", str "-2.0",
      str "en-US", str "3.0"⟩).reverse)
    (List.reverse_perm _)).1

/-- C9: the two key-derivation implementations are not equivalent: on the
specification's sample tuple, `CacheManager._generate_key` (sorted-key JSON
with `volume_gain_db`, `audio:` prefix) and `main.generate_cache_key`
(colon-joined, no volume gain, no prefix) produce different keys — and the
hex digests still differ after accounting for the `audio:` prefix. -/
theorem derivers_inequivalent :
    generate_key ⟨str "Hello world", str "A", str "1.0", str "0.0", str "ja-JP",
        str "0.0"⟩ ≠
      str "audio:" ++ generate_cache_key ⟨str "Hello world", str "A", str "1.0",
        str "0.0", str "ja-JP"⟩ ∧
    sha256hex (utf8 (canonJson ⟨str "Hello world", str "A", str "1.0", str "0.0",
        str "ja-JP", str "0.0"⟩)) ≠
      sha256hex (utf8 (key_data ⟨str "Hello world", str "A", str "1.0", str "0.0",
        str "ja-JP"⟩)) := by
  constructor
  · decide
  · decide
